import Mathlib

/-!
Verification of the JobSpy-V2 client-side store layer.

This file is a shallow embedding of the Zustand stores of the repository:

* `SearchStore` embeds `src/unnamed/part_000` (the search store):
  state shape, `search`, `setPage`, `addToHistory`, and friends.
* `JobStore` embeds the job store of `src/frontend/src/stores/authStore.ts`
  (lines 1073-1290): favorites, view history.
* `UserStore` embeds the resume slice of
  `src/frontend/src/stores/userStore.ts`: `updateResume`, `setDefaultResume`.

Modelling conventions:

* The stores are single-threaded state containers; each action becomes a
  pure function on the state record.  An action that performs a `fetch` is
  parametrised by the backend's outcome (`Except String ...`), since the
  backend is an external collaborator.  An action that rethrows is modelled
  as returning the new state together with the propagated error; an action
  that swallows its error returns just the new state.
* The `async` suspension points matter for the stale-response race, so
  `search` is defined as the composition of its synchronous prefix
  (`searchPre`, everything up to the `await`) and its continuation
  (`searchPost`, everything after the response resolves).
* TypeScript `string` becomes `String`, numbers in the modelled slices are
  `Nat` (they are counts, pages and ids here), optional fields become
  `Option`.  `JSON.stringify`-equality of two `SearchQuery` records built
  from the same interface is structural equality, which is how the history
  dedup predicate is embedded.
-/

namespace JobSpy

/-! Data model: `Job` and `JobApplication` from authStore.ts lines 802-841. -/

structure Salary where
  min : Option Nat
  max : Option Nat
  currency : String
deriving DecidableEq, Repr

structure Job where
  id : String
  title : String
  company : String
  location : String
  salary : Option Salary
  description : String
  requirements : List String
  benefits : Option (List String)
  jobType : String
  experience : String
  skills : List String
  publishedDate : String
  deadline : Option String
  platform : String
  url : String
  companyLogo : Option String
  companySize : Option String
  workMode : Option String
  isRemote : Option Bool
  isUrgent : Option Bool
  viewCount : Option Nat
  applicationCount : Option Nat
deriving DecidableEq, Repr

inductive AppStatus where
  | pending
  | reviewing
  | interview
  | rejected
  | accepted
deriving DecidableEq, Repr

structure JobApplication where
  id : String
  jobId : String
  status : AppStatus
  appliedDate : String
  notes : Option String
  resumeId : Option String
  coverLetter : Option String
  interviewDate : Option String
  feedback : Option String
deriving DecidableEq, Repr

/-! Search store data model, from `src/unnamed/part_000` lines 9-75. -/

structure SearchQuery where
  keyword : String
  location : String
  salaryMin : Option Nat
  salaryMax : Option Nat
  jobType : Option (List String)
  experience : Option String
  companySize : Option String
  skills : Option (List String)
  workMode : Option String
  publishedDate : Option String
  platforms : Option (List String)
deriving DecidableEq, Repr

structure SearchFilters where
  jobTypes : List String
  experienceLevels : List String
  companySizes : List String
  workModes : List String
  skills : List String
  salaryRange : Nat × Nat
  publishedDate : String
deriving DecidableEq, Repr

inductive ViewMode where
  | grid
  | list
deriving DecidableEq, Repr

structure SearchState where
  query : SearchQuery
  filters : SearchFilters
  isSearching : Bool
  error : Option String
  results : List Job
  totalResults : Nat
  currentPage : Nat
  pageSize : Nat
  sortBy : String
  viewMode : ViewMode
  searchHistory : List SearchQuery
  quickFilters : List String
deriving DecidableEq, Repr

/-- Shape of a successful response of GET /jobs/search: `{jobs, total}`. -/
structure SearchResponse where
  jobs : List Job
  total : Nat
deriving DecidableEq, Repr

namespace SearchStore

/-- Initial search store state, part_000 lines 164-190. -/
def initialState : SearchState :=
  { query :=
      { keyword := ""
        location := ""
        salaryMin := none
        salaryMax := none
        jobType := none
        experience := none
        companySize := none
        skills := none
        workMode := none
        publishedDate := none
        platforms := some ["104", "linkedin", "indeed"] }
    filters :=
      { jobTypes := []
        experienceLevels := []
        companySizes := []
        workModes := []
        skills := []
        salaryRange := (0, 200000)
        publishedDate := "all" }
    isSearching := false
    error := none
    results := []
    totalResults := 0
    currentPage := 1
    pageSize := 20
    sortBy := "relevance"
    viewMode := .grid
    searchHistory := []
    quickFilters := [] }

/-- addToHistory, part_000 lines 296-305: drop the deep-equal copies of the
query from the history, prepend the query, keep the first 10 entries. -/
def addToHistory (query : SearchQuery) (st : SearchState) : SearchState :=
  { st with
      searchHistory :=
        (query :: st.searchHistory.filter (fun item => item ≠ query)).take 10 }

/-- Synchronous prefix of search (part_000 lines 213-217): resolve the final
query from the optional override, mark the store as searching, clear the
error.  Returns the new state and the resolved query captured by the
continuation's closure. -/
def searchPre (searchQuery : Option SearchQuery) (st : SearchState) :
    SearchState × SearchQuery :=
  ({ st with isSearching := true, error := none }, searchQuery.getD st.query)

/-- Continuation of search after the backend responds (part_000 lines
219-240).  On success the results and total are replaced wholesale and the
resolved query is recorded in the history; on failure only the loading flag
and the error message are touched and nothing is recorded.  The catch block
swallows the error (no rethrow), so the continuation is total. -/
def searchPost (finalQuery : SearchQuery) (outcome : Except String SearchResponse)
    (st : SearchState) : SearchState :=
  match outcome with
  | .ok response =>
      addToHistory finalQuery
        { st with
            results := response.jobs
            totalResults := response.total
            isSearching := false }
  | .error msg => { st with isSearching := false, error := some msg }

/-- One full search call, part_000 lines 213-241, with the backend's
outcome passed in. -/
def search (searchQuery : Option SearchQuery) (outcome : Except String SearchResponse)
    (st : SearchState) : SearchState :=
  let p := searchPre searchQuery st
  searchPost p.2 outcome p.1

/-- setPage, part_000 lines 265-268: store the page, then re-run search
with no argument. -/
def setPage (page : Nat) (outcome : Except String SearchResponse)
    (st : SearchState) : SearchState :=
  search none outcome { st with currentPage := page }

/-- A sequence of search calls: each element carries the optional override
query and the backend outcome of that call. -/
def runSearches (calls : List (Option SearchQuery × Except String SearchResponse))
    (st : SearchState) : SearchState :=
  calls.foldl (fun s c => search c.1 c.2 s) st

end SearchStore

/-! Job store: authStore.ts lines 843-865 (state shape) and 1073-1290
(actions).  Only the data fields are embedded; actions follow. -/

structure JobState where
  currentJob : Option Job
  isLoadingJob : Bool
  jobError : Option String
  favoriteJobs : List Job
  isFavoriteLoading : Bool
  applications : List JobApplication
  isApplicationLoading : Bool
  viewHistory : List Job
  recommendedJobs : List Job
  isRecommendationLoading : Bool
  similarJobs : List Job
deriving DecidableEq, Repr

namespace JobStore

/-- Initial job store state, authStore.ts lines 1076-1092. -/
def initialState : JobState :=
  { currentJob := none
    isLoadingJob := false
    jobError := none
    favoriteJobs := []
    isFavoriteLoading := false
    applications := []
    isApplicationLoading := false
    viewHistory := []
    recommendedJobs := []
    isRecommendationLoading := false
    similarJobs := [] }

/-- addToFavorites, authStore.ts lines 1127-1140.  The loading flag goes up,
the backend call is awaited; on success the job is appended to the local
favorites and the flag goes down; on failure only the flag goes down and the
error is rethrown (returned in the second component).  No store error field
is written in either branch. -/
def addToFavorites (job : Job) (outcome : Except String Unit) (st : JobState) :
    JobState × Except String Unit :=
  let st := { st with isFavoriteLoading := true }
  match outcome with
  | .ok _ =>
      ({ st with favoriteJobs := st.favoriteJobs ++ [job], isFavoriteLoading := false },
       .ok ())
  | .error e => ({ st with isFavoriteLoading := false }, .error e)

/-- removeFromFavorites, authStore.ts lines 1145-1158: same shape as
addToFavorites, with an id-filter removal on success. -/
def removeFromFavorites (jobId : String) (outcome : Except String Unit)
    (st : JobState) : JobState × Except String Unit :=
  let st := { st with isFavoriteLoading := true }
  match outcome with
  | .ok _ =>
      ({ st with
          favoriteJobs := st.favoriteJobs.filter (fun job => job.id ≠ jobId),
          isFavoriteLoading := false },
       .ok ())
  | .error e => ({ st with isFavoriteLoading := false }, .error e)

/-- isFavorite, authStore.ts lines 1163-1165: membership scan by id. -/
def isFavorite (jobId : String) (st : JobState) : Bool :=
  st.favoriteJobs.any (fun job => job.id = jobId)

/-- addToHistory, authStore.ts lines 1245-1252: remove any entry with the
same id, prepend the job, keep the first 50 entries. -/
def addToHistory (job : Job) (st : JobState) : JobState :=
  { st with
      viewHistory :=
        (job :: st.viewHistory.filter (fun item => item.id ≠ job.id)).take 50 }

/-- clearHistory, authStore.ts lines 1257-1259. -/
def clearHistory (st : JobState) : JobState :=
  { st with viewHistory := [] }

/-- The operations of the job store that write viewHistory: addToHistory
(also reached through fetchJob's success path) and clearHistory. -/
inductive HistOp where
  | add (job : Job)
  | clear
deriving Repr

def applyHistOp (st : JobState) (op : HistOp) : JobState :=
  match op with
  | .add job => addToHistory job st
  | .clear => clearHistory st

/-- Run a sequence of history-writing operations. -/
def runHistOps (ops : List HistOp) (st : JobState) : JobState :=
  ops.foldl applyHistOp st

end JobStore

/-! User store, resume slice: userStore.ts lines 54-79 (Resume) and the
resume fields of UserState (lines 144-148), with updateResume and
setDefaultResume. -/

structure PersonalInfo where
  name : String
  email : String
  phone : Option String
  location : Option String
  website : Option String
  linkedin : Option String
  github : Option String
deriving DecidableEq, Repr

structure Education where
  id : String
  school : String
  degree : String
  field : String
  startDate : String
  endDate : Option String
  gpa : Option Rat
  description : Option String
deriving DecidableEq, Repr

structure Certification where
  id : String
  name : String
  issuer : String
  issueDate : String
  expiryDate : Option String
  credentialId : Option String
  url : Option String
deriving DecidableEq, Repr

structure WorkExperience where
  id : String
  company : String
  position : String
  startDate : String
  endDate : Option String
  isCurrent : Bool
  location : Option String
  description : String
  achievements : List String
  skills : List String
deriving DecidableEq, Repr

structure Project where
  id : String
  name : String
  description : String
  technologies : List String
  url : Option String
  github : Option String
  startDate : String
  endDate : Option String
  highlights : List String
deriving DecidableEq, Repr

inductive LanguageLevel where
  | beginner
  | intermediate
  | advanced
  | native
deriving DecidableEq, Repr

structure Language where
  name : String
  level : LanguageLevel
deriving DecidableEq, Repr

structure ResumeContent where
  personalInfo : PersonalInfo
  summary : Option String
  experience : List WorkExperience
  education : List Education
  skills : List String
  certifications : List Certification
  projects : Option (List Project)
  languages : Option (List Language)
deriving DecidableEq, Repr

structure Resume where
  id : String
  name : String
  template : String
  content : ResumeContent
  isDefault : Bool
  createdAt : String
  updatedAt : String
deriving DecidableEq, Repr

/-- Resume slice of UserState, userStore.ts lines 144-148.  The profile,
preferences and stats fields are untouched by the resume actions and are
omitted from the slice. -/
structure UserState where
  resumes : List Resume
  currentResume : Option Resume
  isResumeLoading : Bool
  resumeError : Option String
deriving DecidableEq, Repr

namespace UserStore

/-- updateResume, userStore.ts lines 498-517.  The loading flag goes up and
the error field clears; the backend PATCH is awaited.  On success the
server-returned resume replaces every list entry with the requested id (and
the current resume if it has that id) and the flag goes down.  On failure
the flag goes down, the message lands in resumeError and the error is
rethrown (second component `some msg`). -/
def updateResume (resumeId : String) (outcome : Except String Resume)
    (st : UserState) : UserState × Option String :=
  let st := { st with isResumeLoading := true, resumeError := none }
  match outcome with
  | .ok updatedResume =>
      ({ st with
          resumes := st.resumes.map
            (fun resume => if resume.id = resumeId then updatedResume else resume),
          currentResume :=
            match st.currentResume with
            | some c => if c.id = resumeId then some updatedResume else some c
            | none => none,
          isResumeLoading := false },
       none)
  | .error msg =>
      ({ st with isResumeLoading := false, resumeError := some msg }, some msg)

/-- The for-loop of setDefaultResume (userStore.ts lines 549-553), iterating
over the snapshot of `get().resumes` taken after the promotion, demoting in
order every entry that is still default and is not the promoted one.  Each
iteration awaits its own updateResume; the first thrown error aborts the
loop and propagates. -/
def demoteLoop (resumeId : String) (backend : String → Bool → Except String Resume) :
    List Resume → UserState → UserState × Option String
  | [], st => (st, none)
  | resume :: rest, st =>
      if resume.id ≠ resumeId ∧ resume.isDefault then
        match updateResume resume.id (backend resume.id false) st with
        | (st', none) => demoteLoop resumeId backend rest st'
        | (st', some msg) => (st', some msg)
      else
        demoteLoop resumeId backend rest st

/-- setDefaultResume, userStore.ts lines 544-557: promote the requested
resume through updateResume, then demote every other still-default resume
from the re-read list, sequentially; any error is rethrown unchanged.
`backend id b` is the server's response to `updateResume(id, {isDefault: b})`. -/
def setDefaultResume (resumeId : String) (backend : String → Bool → Except String Resume)
    (st : UserState) : UserState × Option String :=
  match updateResume resumeId (backend resumeId true) st with
  | (st1, none) => demoteLoop resumeId backend st1.resumes st1
  | (st1, some msg) => (st1, some msg)

end UserStore

/-! Theorems about the search store. -/

/-- Helper invariant for the search history: bounded by 10 and free of
duplicates (structural equality embeds JSON.stringify equality). -/
def HistInv (st : SearchState) : Prop :=
  st.searchHistory.length ≤ 10 ∧ st.searchHistory.Nodup

lemma addToHistory_length_le (q : SearchQuery) (st : SearchState) :
    (SearchStore.addToHistory q st).searchHistory.length ≤ 10 :=
  List.length_take_le 10 _

lemma addToHistory_nodup (q : SearchQuery) (st : SearchState)
    (h : st.searchHistory.Nodup) :
    (SearchStore.addToHistory q st).searchHistory.Nodup := by
  refine ((List.take_sublist _ _).nodup ?_)
  refine List.nodup_cons.mpr ⟨?_, h.filter _⟩
  intro hmem
  have hx := (List.mem_filter.mp hmem).2
  simp at hx

lemma search_step_inv (oq : Option SearchQuery) (outcome : Except String SearchResponse)
    (st : SearchState) (h : HistInv st) : HistInv (SearchStore.search oq outcome st) := by
  cases outcome with
  | ok resp =>
      exact ⟨addToHistory_length_le _ _, addToHistory_nodup _ _ h.2⟩
  | error msg =>
      exact h

lemma runSearches_inv (calls : List (Option SearchQuery × Except String SearchResponse)) :
    ∀ st : SearchState, HistInv st → HistInv (SearchStore.runSearches calls st) := by
  induction calls with
  | nil => intro st h; exact h
  | cons c rest ih =>
      intro st h
      exact ih _ (search_step_inv c.1 c.2 st h)

/-- Claim C2: over every sequence of search calls from the initial state,
the search history stays at length at most 10, holds no two deep-equal
entries, and one more successful search always puts its resolved query at
index 0 (so the most recently recorded query heads the list). -/
theorem searchHistory_bounded_nodup_mru
    (calls : List (Option SearchQuery × Except String SearchResponse)) :
    (SearchStore.runSearches calls SearchStore.initialState).searchHistory.length ≤ 10 ∧
    (SearchStore.runSearches calls SearchStore.initialState).searchHistory.Nodup ∧
    ∀ (oq : Option SearchQuery) (resp : SearchResponse),
      (SearchStore.search oq (.ok resp)
          (SearchStore.runSearches calls SearchStore.initialState)).searchHistory.head? =
        some (oq.getD (SearchStore.runSearches calls SearchStore.initialState).query) := by
  have h := runSearches_inv calls SearchStore.initialState (by constructor <;> simp [SearchStore.initialState])
  exact ⟨h.1, h.2, fun oq resp => rfl⟩

/-- Sample query used to exercise the store on concrete inputs. -/
def sampleQuery : SearchQuery :=
  { keyword := "engineer"
    location := "Taipei"
    salaryMin := none
    salaryMax := none
    jobType := none
    experience := none
    companySize := none
    skills := none
    workMode := none
    publishedDate := none
    platforms := none }

/-- Claim C3, counterexample: a search whose backend call fails records
nothing — the history is still empty afterwards, so the resolved query was
not appended, contradicting the claim that every invocation (success or
failure) appends it. -/
theorem search_failure_does_not_record :
    (SearchStore.search (some sampleQuery) (.error "boom")
        SearchStore.initialState).searchHistory = [] := rfl

/-- Claim C3, amended: a successful search appends the resolved query to the
history (deduplicated by deep equality, capped at 10, most-recent first),
while a failed search leaves the history unchanged. -/
theorem search_appends_history_on_success_only (oq : Option SearchQuery)
    (resp : SearchResponse) (msg : String) (st : SearchState) :
    (SearchStore.search oq (.ok resp) st).searchHistory =
      ((oq.getD st.query) ::
        st.searchHistory.filter (fun item => item ≠ oq.getD st.query)).take 10 ∧
    (SearchStore.search oq (.error msg) st).searchHistory = st.searchHistory :=
  ⟨rfl, rfl⟩

/-- Claim C4: a failed search leaves the store with the loading flag down
and the thrown message in `error`, and everything else — in particular the
previous results and total — exactly as before; the error is swallowed
(`search` is total, nothing is rethrown). -/
theorem search_failure_state (oq : Option SearchQuery) (msg : String) (st : SearchState) :
    SearchStore.search oq (.error msg) st =
      { st with isSearching := false, error := some msg } := rfl

/-- Claim C6: a successful search — also the one re-issued by setPage —
replaces the results wholesale with the response's jobs and the total with
the response's total; the previous results never leak into the new list. -/
theorem search_replaces_results (oq : Option SearchQuery) (resp : SearchResponse)
    (st : SearchState) (page : Nat) :
    (SearchStore.search oq (.ok resp) st).results = resp.jobs ∧
    (SearchStore.search oq (.ok resp) st).totalResults = resp.total ∧
    (SearchStore.setPage page (.ok resp) st).results = resp.jobs ∧
    (SearchStore.setPage page (.ok resp) st).totalResults = resp.total ∧
    (SearchStore.setPage page (.ok resp) st).currentPage = page :=
  ⟨rfl, rfl, rfl, rfl, rfl⟩

/-- Claim C9: if search A suspends, search B suspends, B's response lands
first and A's lands last, the final results are A's — the last-resolved
response wins, with no cancellation or request-identity check. -/
theorem search_last_resolved_wins (qA qB : Option SearchQuery)
    (respA respB : SearchResponse) (st0 : SearchState) :
    (SearchStore.searchPost (SearchStore.searchPre qA st0).2 (.ok respA)
        (SearchStore.searchPost (SearchStore.searchPre qB (SearchStore.searchPre qA st0).1).2
          (.ok respB)
          (SearchStore.searchPre qB (SearchStore.searchPre qA st0).1).1)).results =
      respA.jobs ∧
    (SearchStore.searchPost (SearchStore.searchPre qA st0).2 (.ok respA)
        (SearchStore.searchPost (SearchStore.searchPre qB (SearchStore.searchPre qA st0).1).2
          (.ok respB)
          (SearchStore.searchPre qB (SearchStore.searchPre qA st0).1).1)).totalResults =
      respA.total :=
  ⟨rfl, rfl⟩

/-! Theorems about the job store. -/

/-- Claim C5: favorites are mutated only after the awaited backend call
succeeds.  On success the job is appended (resp. the id is filtered out);
on failure the whole state is the old one with only the loading flag forced
down — favorites and jobError untouched — and the error is rethrown. -/
theorem favorites_mutate_only_on_success (job : Job) (jobId : String)
    (e : String) (st : JobState) :
    (JobStore.addToFavorites job (.ok ()) st).1.favoriteJobs = st.favoriteJobs ++ [job] ∧
    (JobStore.addToFavorites job (.ok ()) st).2 = .ok () ∧
    (JobStore.removeFromFavorites jobId (.ok ()) st).1.favoriteJobs =
      st.favoriteJobs.filter (fun j => j.id ≠ jobId) ∧
    (JobStore.addToFavorites job (.error e) st).1 = { st with isFavoriteLoading := false } ∧
    (JobStore.addToFavorites job (.error e) st).2 = .error e ∧
    (JobStore.removeFromFavorites jobId (.error e) st).1 =
      { st with isFavoriteLoading := false } ∧
    (JobStore.removeFromFavorites jobId (.error e) st).2 = .error e :=
  ⟨rfl, rfl, rfl, rfl, rfl, rfl, rfl⟩

/-- Invariant of the view history: bounded by 50 with pairwise-distinct ids. -/
def ViewInv (st : JobState) : Prop :=
  st.viewHistory.length ≤ 50 ∧ (st.viewHistory.map (fun j => j.id)).Nodup

lemma jobAddToHistory_ids_nodup (job : Job) (st : JobState)
    (h : (st.viewHistory.map (fun j => j.id)).Nodup) :
    ((JobStore.addToHistory job st).viewHistory.map (fun j => j.id)).Nodup := by
  have hsub : (JobStore.addToHistory job st).viewHistory.Sublist
      (job :: st.viewHistory.filter (fun item => item.id ≠ job.id)) :=
    List.take_sublist _ _
  refine (hsub.map (fun j => j.id)).nodup ?_
  rw [List.map_cons]
  refine List.nodup_cons.mpr ⟨?_, ?_⟩
  · intro hmem
    obtain ⟨x, hxmem, hxid⟩ := List.mem_map.mp hmem
    have hx := (List.mem_filter.mp hxmem).2
    simp only [decide_eq_true_eq] at hx
    exact hx hxid
  · exact ((List.filter_sublist _).map _).nodup h

lemma viewInv_step (st : JobState) (op : JobStore.HistOp) (h : ViewInv st) :
    ViewInv (JobStore.applyHistOp st op) := by
  cases op with
  | add job =>
      exact ⟨List.length_take_le _ _, jobAddToHistory_ids_nodup job st h.2⟩
  | clear =>
      constructor <;> simp [JobStore.applyHistOp, JobStore.clearHistory]

lemma runHistOps_inv (ops : List JobStore.HistOp) :
    ∀ st : JobState, ViewInv st → ViewInv (JobStore.runHistOps ops st) := by
  induction ops with
  | nil => intro st h; exact h
  | cons op rest ih =>
      intro st h
      exact ih _ (viewInv_step st op h)

lemma countP_id_le_one (l : List Job) (hl : (l.map (fun j => j.id)).Nodup)
    (a : String) : l.countP (fun j => j.id = a) ≤ 1 := by
  have h1 : (l.map (fun j => j.id)).count a ≤ 1 :=
    List.nodup_iff_count_le_one.mp hl a
  have h2 : (l.map (fun j => j.id)).count a = l.countP (fun j => j.id = a) := by
    rw [List.count, List.countP_map]
    apply List.countP_congr
    intro x _
    by_cases hx : x.id = a <;> simp [Function.comp, hx]
  omega

lemma jobAddToHistory_length_present (job : Job) (st : JobState)
    (hinv : ViewInv st) (hmem : ∃ x ∈ st.viewHistory, x.id = job.id) :
    (JobStore.addToHistory job st).viewHistory.length = st.viewHistory.length := by
  obtain ⟨hlen, hids⟩ := hinv
  have hpos : 0 < st.viewHistory.countP (fun j => j.id = job.id) := by
    refine List.countP_pos.mpr ?_
    obtain ⟨x, hx, hxid⟩ := hmem
    exact ⟨x, hx, by simpa using hxid⟩
  have hle : st.viewHistory.countP (fun j => j.id = job.id) ≤ 1 :=
    countP_id_le_one _ hids _
  have hsplit : st.viewHistory.length =
      st.viewHistory.countP (fun item => item.id ≠ job.id) +
        st.viewHistory.countP (fun j => j.id = job.id) := by
    have := List.length_eq_countP_add_countP (fun item => decide (item.id ≠ job.id))
      (l := st.viewHistory)
    rw [this]
    congr 1
    apply List.countP_congr
    intro x _
    by_cases hx : x.id = job.id <;> simp [hx]
  have hfl : (st.viewHistory.filter (fun item => item.id ≠ job.id)).length =
      st.viewHistory.countP (fun item => item.id ≠ job.id) :=
    (List.countP_eq_length_filter _ _).symm
  show ((job :: st.viewHistory.filter (fun item => item.id ≠ job.id)).take 50).length =
      st.viewHistory.length
  rw [List.length_take, List.length_cons, hfl]
  omega

/-- Claim C7: in every reachable job-store state the view history has at
most 50 entries; addToHistory puts the job at index 0, leaves no other
entry with its id, and — when an entry with that id was already present —
keeps the length unchanged. -/
theorem viewHistory_props (ops : List JobStore.HistOp) (job : Job) :
    (JobStore.runHistOps ops JobStore.initialState).viewHistory.length ≤ 50 ∧
    (JobStore.addToHistory job
        (JobStore.runHistOps ops JobStore.initialState)).viewHistory.head? = some job ∧
    (∀ x ∈ (JobStore.addToHistory job
        (JobStore.runHistOps ops JobStore.initialState)).viewHistory.drop 1, x.id ≠ job.id) ∧
    ((∃ x ∈ (JobStore.runHistOps ops JobStore.initialState).viewHistory, x.id = job.id) →
      (JobStore.addToHistory job
          (JobStore.runHistOps ops JobStore.initialState)).viewHistory.length =
        (JobStore.runHistOps ops JobStore.initialState).viewHistory.length) := by
  have hinv : ViewInv (JobStore.runHistOps ops JobStore.initialState) :=
    runHistOps_inv ops JobStore.initialState
      (by constructor <;> simp [JobStore.initialState])
  refine ⟨hinv.1, rfl, ?_, fun hmem => jobAddToHistory_length_present job _ hinv hmem⟩
  intro x hx
  set st := JobStore.runHistOps ops JobStore.initialState with hst
  have hx' : x ∈ (st.viewHistory.filter (fun item => item.id ≠ job.id)).take 49 := hx
  have hxf : x ∈ st.viewHistory.filter (fun item => item.id ≠ job.id) :=
    List.mem_of_mem_take hx'
  have := (List.mem_filter.mp hxf).2
  simpa using this

/-- Concrete job fixture used to evaluate the store on explicit inputs. -/
def sampleJob (id title : String) : Job :=
  { id := id
    title := title
    company := "ACME"
    location := "Taipei"
    salary := none
    description := "d"
    requirements := []
    benefits := none
    jobType := "full-time"
    experience := "junior"
    skills := []
    publishedDate := "2024-01-01"
    deadline := none
    platform := "104"
    url := "https://example.com/1"
    companyLogo := none
    companySize := none
    workMode := none
    isRemote := none
    isUrgent := none
    viewCount := none
    applicationCount := none }

/-- Witness for claim C7: with a history holding one job of id "1", adding
another job with id "1" keeps the length at 1. -/
theorem viewHistory_props_witness :
    (∃ x ∈ (JobStore.runHistOps [JobStore.HistOp.add (sampleJob "1" "alpha")]
        JobStore.initialState).viewHistory, x.id = (sampleJob "1" "beta").id) ∧
    (JobStore.addToHistory (sampleJob "1" "beta")
        (JobStore.runHistOps [JobStore.HistOp.add (sampleJob "1" "alpha")]
          JobStore.initialState)).viewHistory.length =
      (JobStore.runHistOps [JobStore.HistOp.add (sampleJob "1" "alpha")]
          JobStore.initialState).viewHistory.length :=
  ⟨by decide, (viewHistory_props [JobStore.HistOp.add (sampleJob "1" "alpha")]
      (sampleJob "1" "beta")).2.2.2 (by decide)⟩

/-- Claim C10: addToFavorites never deduplicates — when a favorite with the
job's id is already present, a successful add still appends, growing the
list by one and leaving at least two entries with that id. -/
theorem addToFavorites_no_dedup (job : Job) (st : JobState)
    (h : JobStore.isFavorite job.id st = true) :
    (JobStore.addToFavorites job (.ok ()) st).1.favoriteJobs = st.favoriteJobs ++ [job] ∧
    (JobStore.addToFavorites job (.ok ()) st).1.favoriteJobs.length =
      st.favoriteJobs.length + 1 ∧
    2 ≤ (JobStore.addToFavorites job (.ok ()) st).1.favoriteJobs.countP
          (fun j => j.id = job.id) := by
  refine ⟨rfl, by simp [JobStore.addToFavorites], ?_⟩
  have hex : ∃ x ∈ st.favoriteJobs, x.id = job.id := by
    have := h
    unfold JobStore.isFavorite at this
    obtain ⟨x, hx, hxid⟩ := List.any_eq_true.mp this
    exact ⟨x, hx, by simpa using hxid⟩
  have hpos : 0 < st.favoriteJobs.countP (fun j => j.id = job.id) := by
    refine List.countP_pos.mpr ?_
    obtain ⟨x, hx, hxid⟩ := hex
    exact ⟨x, hx, by simpa using hxid⟩
  show 2 ≤ (st.favoriteJobs ++ [job]).countP (fun j => j.id = job.id)
  rw [List.countP_append]
  have hone : List.countP (fun j => decide (j.id = job.id)) [job] = 1 := by simp
  omega

/-- Witness for claim C10: a favorites list already holding a job of id
"42" grows to hold two entries of id "42". -/
theorem addToFavorites_no_dedup_witness :
    JobStore.isFavorite (sampleJob "42" "second").id
      { JobStore.initialState with favoriteJobs := [sampleJob "42" "first"] } = true ∧
    2 ≤ (JobStore.addToFavorites (sampleJob "42" "second") (.ok ())
          { JobStore.initialState with
              favoriteJobs := [sampleJob "42" "first"] }).1.favoriteJobs.countP
            (fun j => j.id = (sampleJob "42" "second").id) :=
  ⟨by decide, (addToFavorites_no_dedup (sampleJob "42" "second")
      { JobStore.initialState with favoriteJobs := [sampleJob "42" "first"] }
      (by decide)).2.2⟩

/-! Theorems about the user store's maintenance of the single-default
resume invariant. -/

/-- Backend in which every updateResume request succeeds, answering the
request on resume `id` with requested flag `b` by the resume `ret id b`. -/
def okBackend (ret : String → Bool → Resume) : String → Bool → Except String Resume :=
  fun id b => .ok (ret id b)

/-- Net effect of an all-success demotion loop over a fixed snapshot on one
entry of the evolving list: the entry is replaced by the server's demoted
resume exactly when the snapshot holds a still-default entry with its id
other than the promoted one. -/
def demotedBy (resumeId : String) (ret : String → Bool → Resume)
    (snapshot : List Resume) (x : Resume) : Resume :=
  if ∃ r ∈ snapshot, r.id ≠ resumeId ∧ r.isDefault = true ∧ r.id = x.id then
    ret x.id false
  else x

lemma demotedBy_cons_pos (resumeId : String) (ret : String → Bool → Resume)
    (hrid : ∀ id b, (ret id b).id = id) (r : Resume) (rest : List Resume)
    (hc : r.id ≠ resumeId ∧ r.isDefault = true) (x : Resume) :
    demotedBy resumeId ret rest (if x.id = r.id then ret r.id false else x) =
      demotedBy resumeId ret (r :: rest) x := by
  by_cases hx : x.id = r.id
  · rw [if_pos hx]
    unfold demotedBy
    have hmem : ∃ y ∈ r :: rest, y.id ≠ resumeId ∧ y.isDefault = true ∧ y.id = x.id :=
      ⟨r, List.mem_cons_self r rest, hc.1, hc.2, hx.symm⟩
    by_cases hcond : ∃ y ∈ rest,
        y.id ≠ resumeId ∧ y.isDefault = true ∧ y.id = (ret r.id false).id
    · rw [if_pos hcond, if_pos hmem, hrid, hx]
    · rw [if_neg hcond, if_pos hmem, hx]
  · rw [if_neg hx]
    unfold demotedBy
    have hequiv : (∃ y ∈ rest, y.id ≠ resumeId ∧ y.isDefault = true ∧ y.id = x.id) ↔
        (∃ y ∈ r :: rest, y.id ≠ resumeId ∧ y.isDefault = true ∧ y.id = x.id) := by
      constructor
      · rintro ⟨y, hy, hyp⟩
        exact ⟨y, List.mem_cons_of_mem _ hy, hyp⟩
      · rintro ⟨y, hy, h1, h2, h3⟩
        rcases List.mem_cons.mp hy with rfl | hy'
        · exact absurd h3.symm hx
        · exact ⟨y, hy', h1, h2, h3⟩
    exact if_congr hequiv rfl rfl

lemma demotedBy_cons_neg (resumeId : String) (ret : String → Bool → Resume)
    (r : Resume) (rest : List Resume)
    (hc : ¬(r.id ≠ resumeId ∧ r.isDefault = true)) (x : Resume) :
    demotedBy resumeId ret rest x = demotedBy resumeId ret (r :: rest) x := by
  unfold demotedBy
  have hequiv : (∃ y ∈ rest, y.id ≠ resumeId ∧ y.isDefault = true ∧ y.id = x.id) ↔
      (∃ y ∈ r :: rest, y.id ≠ resumeId ∧ y.isDefault = true ∧ y.id = x.id) := by
    constructor
    · rintro ⟨y, hy, hyp⟩
      exact ⟨y, List.mem_cons_of_mem _ hy, hyp⟩
    · rintro ⟨y, hy, h1, h2, h3⟩
      rcases List.mem_cons.mp hy with rfl | hy'
      · exact absurd ⟨h1, h2⟩ hc
      · exact ⟨y, hy', h1, h2, h3⟩
  exact if_congr hequiv rfl rfl

lemma demoteLoop_ok (resumeId : String) (ret : String → Bool → Resume)
    (hrid : ∀ id b, (ret id b).id = id) (S : List Resume) :
    ∀ st : UserState,
      (UserStore.demoteLoop resumeId (okBackend ret) S st).2 = none ∧
      (UserStore.demoteLoop resumeId (okBackend ret) S st).1.resumes =
        st.resumes.map (demotedBy resumeId ret S) := by
  induction S with
  | nil =>
      intro st
      refine ⟨rfl, ?_⟩
      have hfun : demotedBy resumeId ret [] = fun x => x := by
        funext x
        unfold demotedBy
        rw [if_neg]
        rintro ⟨y, hy, -⟩
        exact List.not_mem_nil y hy
      rw [hfun, List.map_id']
      rfl
  | cons r rest ih =>
      intro st
      by_cases hc : r.id ≠ resumeId ∧ r.isDefault = true
      · have hstep : UserStore.demoteLoop resumeId (okBackend ret) (r :: rest) st =
            UserStore.demoteLoop resumeId (okBackend ret) rest
              ((UserStore.updateResume r.id (.ok (ret r.id false)) st).1) := by
          simp only [UserStore.demoteLoop, okBackend]
          rw [if_pos hc]
          rfl
        rw [hstep]
        obtain ⟨h2, h1⟩ := ih ((UserStore.updateResume r.id (.ok (ret r.id false)) st).1)
        refine ⟨h2, ?_⟩
        rw [h1]
        show (st.resumes.map fun resume =>
                if resume.id = r.id then ret r.id false else resume).map
              (demotedBy resumeId ret rest) =
            st.resumes.map (demotedBy resumeId ret (r :: rest))
        rw [List.map_map]
        have hfun : (demotedBy resumeId ret rest ∘ fun resume =>
            if resume.id = r.id then ret r.id false else resume) =
            demotedBy resumeId ret (r :: rest) :=
          funext fun x => demotedBy_cons_pos resumeId ret hrid r rest hc x
        rw [hfun]
      · have hstep : UserStore.demoteLoop resumeId (okBackend ret) (r :: rest) st =
            UserStore.demoteLoop resumeId (okBackend ret) rest st := by
          simp only [UserStore.demoteLoop, okBackend]
          rw [if_neg hc]
        rw [hstep]
        obtain ⟨h2, h1⟩ := ih st
        refine ⟨h2, ?_⟩
        rw [h1]
        have hfun : demotedBy resumeId ret rest = demotedBy resumeId ret (r :: rest) :=
          funext fun x => demotedBy_cons_neg resumeId ret r rest hc x
        rw [hfun]

/-- Promotion map of updateResume's success path during setDefaultResume:
the entry with the requested id is replaced by the server's promoted
resume. -/
def promote (resumeId : String) (ret : String → Bool → Resume) (resume : Resume) : Resume :=
  if resume.id = resumeId then ret resumeId true else resume

lemma promote_demote_id (resumeId : String) (ret : String → Bool → Resume)
    (hrid : ∀ id b, (ret id b).id = id) (S : List Resume) (r : Resume) :
    (demotedBy resumeId ret S (promote resumeId ret r)).id = r.id := by
  unfold promote
  by_cases h : r.id = resumeId
  · rw [if_pos h]
    unfold demotedBy
    split
    · rw [hrid, hrid]; exact h.symm
    · rw [hrid]; exact h.symm
  · rw [if_neg h]
    unfold demotedBy
    split
    · exact hrid _ _
    · rfl

lemma promote_demote_isDefault (resumeId : String) (ret : String → Bool → Resume)
    (hrid : ∀ id b, (ret id b).id = id) (hrdef : ∀ id b, (ret id b).isDefault = b)
    (L : List Resume) (hnodup : (L.map (fun r => r.id)).Nodup)
    (r : Resume) (hr : r ∈ L) :
    (demotedBy resumeId ret (L.map (promote resumeId ret))
        (promote resumeId ret r)).isDefault = decide (r.id = resumeId) := by
  by_cases h : r.id = resumeId
  · have hpr : promote resumeId ret r = ret resumeId true := if_pos h
    rw [hpr]
    unfold demotedBy
    rw [if_neg]
    · simp [hrdef, h]
    · rintro ⟨y, hy, h1, h2, h3⟩
      rw [hrid] at h3
      exact h1 h3
  · have hpr : promote resumeId ret r = r := if_neg h
    rw [hpr]
    unfold demotedBy
    by_cases hd : r.isDefault = true
    · rw [if_pos ⟨r, List.mem_map.mpr ⟨r, hr, hpr⟩, h, hd, rfl⟩]
      simp [hrdef, h]
    · rw [if_neg]
      · simp [h, Bool.eq_false_iff.mpr hd]
      · rintro ⟨y, hy, h1, h2, h3⟩
        obtain ⟨z, hz, rfl⟩ := List.mem_map.mp hy
        by_cases hzid : z.id = resumeId
        · have : promote resumeId ret z = ret resumeId true := if_pos hzid
          rw [this, hrid] at h1
          exact h1 rfl
        · have hzz : promote resumeId ret z = z := if_neg hzid
          rw [hzz] at h2 h3
          have hzr : z = r := List.inj_on_of_nodup_map hnodup hz hr h3
          rw [hzr] at h2
          exact hd h2

/-- Claim C1, amended: if the resume ids are pairwise distinct, the list
holds a resume with id `resumeId` and exactly one default entry, then a
fully successful setDefaultResume — every backend call answering with a
resume carrying the addressed id and the requested isDefault value — ends
with no error and with exactly one default resume, namely the one whose id
is `resumeId`. -/
theorem setDefaultResume_single_default (resumeId : String)
    (ret : String → Bool → Resume) (st : UserState)
    (hrid : ∀ id b, (ret id b).id = id)
    (hrdef : ∀ id b, (ret id b).isDefault = b)
    (hnodup : (st.resumes.map (fun r => r.id)).Nodup)
    (hmem : resumeId ∈ st.resumes.map (fun r => r.id))
    (hone : st.resumes.countP (fun r => r.isDefault) = 1) :
    (UserStore.setDefaultResume resumeId (okBackend ret) st).2 = none ∧
    (∀ x ∈ (UserStore.setDefaultResume resumeId (okBackend ret) st).1.resumes,
        x.isDefault = true ↔ x.id = resumeId) ∧
    (UserStore.setDefaultResume resumeId (okBackend ret) st).1.resumes.countP
        (fun r => r.isDefault) = 1 := by
  have hsd : UserStore.setDefaultResume resumeId (okBackend ret) st =
      UserStore.demoteLoop resumeId (okBackend ret)
        (st.resumes.map (promote resumeId ret))
        ((UserStore.updateResume resumeId (.ok (ret resumeId true)) st).1) := rfl
  obtain ⟨hnone, hres⟩ := demoteLoop_ok resumeId ret hrid
    (st.resumes.map (promote resumeId ret))
    ((UserStore.updateResume resumeId (.ok (ret resumeId true)) st).1)
  have hres' : (UserStore.setDefaultResume resumeId (okBackend ret) st).1.resumes =
      (st.resumes.map (promote resumeId ret)).map
        (demotedBy resumeId ret (st.resumes.map (promote resumeId ret))) := by
    rw [hsd, hres]
    rfl
  refine ⟨by rw [hsd]; exact hnone, ?_, ?_⟩
  · intro x hx
    rw [hres'] at hx
    obtain ⟨y, hy, rfl⟩ := List.mem_map.mp hx
    obtain ⟨r, hr, rfl⟩ := List.mem_map.mp hy
    rw [promote_demote_isDefault resumeId ret hrid hrdef st.resumes hnodup r hr,
      promote_demote_id resumeId ret hrid _ r]
    exact decide_eq_true_iff
  · rw [hres', List.map_map, List.countP_map]
    have hc1 : st.resumes.countP
        ((fun x => x.isDefault) ∘
          demotedBy resumeId ret (st.resumes.map (promote resumeId ret)) ∘
            promote resumeId ret) =
        st.resumes.countP (fun r => decide (r.id = resumeId)) := by
      apply List.countP_congr
      intro r hr
      simp only [Function.comp]
      rw [promote_demote_isDefault resumeId ret hrid hrdef st.resumes hnodup r hr]
    rw [hc1]
    have hc2 : st.resumes.countP (fun r => decide (r.id = resumeId)) =
        (st.resumes.map (fun r => r.id)).count resumeId := by
      rw [List.count, List.countP_map]
      apply List.countP_congr
      intro r _
      simp [Function.comp]
    rw [hc2]
    exact List.count_eq_one_of_mem hnodup hmem

/-- Concrete resume fixture used to evaluate the store on explicit inputs. -/
def mkResume (id name : String) (d : Bool) : Resume :=
  { id := id
    name := name
    template := "basic"
    content :=
      { personalInfo :=
          { name := "n"
            email := "e@example.com"
            phone := none
            location := none
            website := none
            linkedin := none
            github := none }
        summary := none
        experience := []
        education := []
        skills := []
        certifications := []
        projects := none
        languages := none }
    isDefault := d
    createdAt := "2024-01-01"
    updatedAt := "2024-01-01" }

/-- Concrete honest backend: answers the update of resume `id` with a
resume of that id carrying the requested flag. -/
def mkRet : String → Bool → Resume :=
  fun id b => mkResume id id b

/-- Claim C1, counterexample: a list with exactly one default resume (id
"a"), on which setDefaultResume("b") runs to completion with every backend
request succeeding and answering with the requested isDefault value —
because no in-memory resume has id "b", the promotion touches nothing
locally and the demotion loop then demotes "a", leaving zero defaults
instead of the claimed exactly-one-with-id-"b". -/
theorem setDefaultResume_missing_id_cex :
    (({ resumes := [mkResume "a" "A" true], currentResume := none,
        isResumeLoading := false, resumeError := none } : UserState).resumes.countP
          (fun r => r.isDefault) = 1) ∧
    (UserStore.setDefaultResume "b" (okBackend mkRet)
        { resumes := [mkResume "a" "A" true], currentResume := none,
          isResumeLoading := false, resumeError := none }).2 = none ∧
    (UserStore.setDefaultResume "b" (okBackend mkRet)
        { resumes := [mkResume "a" "A" true], currentResume := none,
          isResumeLoading := false, resumeError := none }).1.resumes.countP
          (fun r => r.isDefault) = 0 := by
  refine ⟨rfl, rfl, rfl⟩

/-- Witness for the amended claim C1: on the two-resume list [a(default),
b], a fully successful setDefaultResume("b") leaves exactly one default. -/
theorem setDefaultResume_single_default_witness :
    ((([mkResume "a" "A" true, mkResume "b" "B" false] : List Resume).map
        (fun r => r.id)).Nodup ∧
      "b" ∈ ([mkResume "a" "A" true, mkResume "b" "B" false] : List Resume).map
        (fun r => r.id)) ∧
    (UserStore.setDefaultResume "b" (okBackend mkRet)
        { resumes := [mkResume "a" "A" true, mkResume "b" "B" false],
          currentResume := none, isResumeLoading := false,
          resumeError := none }).1.resumes.countP (fun r => r.isDefault) = 1 :=
  ⟨⟨by decide, by decide⟩,
    (setDefaultResume_single_default "b" mkRet
      { resumes := [mkResume "a" "A" true, mkResume "b" "B" false],
        currentResume := none, isResumeLoading := false, resumeError := none }
      (fun _ _ => rfl) (fun _ _ => rfl) (by decide) (by decide) (by decide)).2.2⟩

lemma demoteLoop_fail (resumeId msg : String)
    (backend : String → Bool → Except String Resume)
    (hfail : ∀ id, backend id false = .error msg) (S : List Resume) :
    ∀ st : UserState, (∃ r ∈ S, r.id ≠ resumeId ∧ r.isDefault = true) →
      UserStore.demoteLoop resumeId backend S st =
        ({ st with isResumeLoading := false, resumeError := some msg }, some msg) := by
  induction S with
  | nil =>
      rintro st ⟨r, hr, -⟩
      exact absurd hr (List.not_mem_nil r)
  | cons r rest ih =>
      intro st hex
      by_cases hc : r.id ≠ resumeId ∧ r.isDefault = true
      · simp only [UserStore.demoteLoop]
        rw [if_pos hc, hfail r.id]
        rfl
      · simp only [UserStore.demoteLoop]
        rw [if_neg hc]
        apply ih
        rcases hex with ⟨y, hy, hyp⟩
        rcases List.mem_cons.mp hy with rfl | hy'
        · exact absurd hyp hc
        · exact ⟨y, hy', hyp⟩

lemma two_le_countP {α : Type} (p : α → Bool) (l : List α) (a b : α)
    (ha : a ∈ l) (hb : b ∈ l) (hab : a ≠ b)
    (hpa : p a = true) (hpb : p b = true) : 2 ≤ l.countP p := by
  obtain ⟨s, t, rfl⟩ := List.append_of_mem ha
  rw [List.countP_append, List.countP_cons]
  rcases List.mem_append.mp hb with hbs | hbt
  · have hs : 0 < s.countP p := List.countP_pos_iff.mpr ⟨b, hbs, hpb⟩
    simp [hpa]
    omega
  · rcases List.mem_cons.mp hbt with rfl | hbt'
    · exact absurd rfl hab
    · have ht : 0 < t.countP p := List.countP_pos_iff.mpr ⟨b, hbt', hpb⟩
      simp [hpa]
      omega

/-- Claim C8: if the promotion request of setDefaultResume succeeds (the
server answering with a default resume of the requested id) but the
demotion requests fail, the error is rethrown, nothing is rolled back —
the local list is exactly the promoted list — and more than one resume is
left marked default: the promoted one and every former default. -/
theorem setDefaultResume_demote_failure (resumeId msg : String)
    (backend : String → Bool → Except String Resume) (st : UserState)
    (promoted : Resume)
    (hpro : backend resumeId true = .ok promoted)
    (hpid : promoted.id = resumeId) (hpdef : promoted.isDefault = true)
    (hfail : ∀ id, backend id false = .error msg)
    (n : Resume) (hn : n ∈ st.resumes) (hnid : n.id = resumeId)
    (d : Resume) (hd : d ∈ st.resumes) (hdid : d.id ≠ resumeId)
    (hddef : d.isDefault = true) :
    (UserStore.setDefaultResume resumeId backend st).2 = some msg ∧
    (UserStore.setDefaultResume resumeId backend st).1.resumes =
      st.resumes.map (fun resume => if resume.id = resumeId then promoted else resume) ∧
    2 ≤ (UserStore.setDefaultResume resumeId backend st).1.resumes.countP
          (fun r => r.isDefault) := by
  have hstep : UserStore.setDefaultResume resumeId backend st =
      UserStore.demoteLoop resumeId backend
        ((UserStore.updateResume resumeId (.ok promoted) st).1.resumes)
        ((UserStore.updateResume resumeId (.ok promoted) st).1) := by
    unfold UserStore.setDefaultResume
    rw [hpro]
    rfl
  have hdmem : d ∈ (UserStore.updateResume resumeId (.ok promoted) st).1.resumes := by
    show d ∈ st.resumes.map (fun resume => if resume.id = resumeId then promoted else resume)
    exact List.mem_map.mpr ⟨d, hd, if_neg hdid⟩
  have hloop := demoteLoop_fail resumeId msg backend hfail
    ((UserStore.updateResume resumeId (.ok promoted) st).1.resumes)
    ((UserStore.updateResume resumeId (.ok promoted) st).1)
    ⟨d, hdmem, hdid, hddef⟩
  rw [hstep, hloop]
  refine ⟨rfl, rfl, ?_⟩
  show 2 ≤ (st.resumes.map
      (fun resume => if resume.id = resumeId then promoted else resume)).countP
      (fun r => r.isDefault)
  refine two_le_countP _ _ promoted d ?_ ?_ ?_ hpdef hddef
  · exact List.mem_map.mpr ⟨n, hn, if_pos hnid⟩
  · exact List.mem_map.mpr ⟨d, hd, if_neg hdid⟩
  · intro h
    rw [h] at hpid
    exact hdid hpid

/-- Witness for claim C8: promoting "b" succeeds, the demotion of the old
default "a" fails, and the list is left with two defaults. -/
theorem setDefaultResume_demote_failure_witness :
    ((mkResume "a" "A" true).id ≠ "b" ∧ (mkResume "a" "A" true).isDefault = true) ∧
    (UserStore.setDefaultResume "b"
        (fun id b => if b then .ok (mkResume id id true) else .error "boom")
        { resumes := [mkResume "a" "A" true, mkResume "b" "B" false],
          currentResume := none, isResumeLoading := false,
          resumeError := none }).2 = some "boom" ∧
    2 ≤ (UserStore.setDefaultResume "b"
        (fun id b => if b then .ok (mkResume id id true) else .error "boom")
        { resumes := [mkResume "a" "A" true, mkResume "b" "B" false],
          currentResume := none, isResumeLoading := false,
          resumeError := none }).1.resumes.countP (fun r => r.isDefault) :=
  ⟨⟨by decide, by decide⟩,
    (setDefaultResume_demote_failure "b" "boom"
      (fun id b => if b then .ok (mkResume id id true) else .error "boom")
      { resumes := [mkResume "a" "A" true, mkResume "b" "B" false],
        currentResume := none, isResumeLoading := false, resumeError := none }
      (mkResume "b" "b" true) rfl rfl rfl (fun _ => rfl)
      (mkResume "b" "B" false) (by decide) rfl
      (mkResume "a" "A" true) (by decide) (by decide) rfl).1,
    (setDefaultResume_demote_failure "b" "boom"
      (fun id b => if b then .ok (mkResume id id true) else .error "boom")
      { resumes := [mkResume "a" "A" true, mkResume "b" "B" false],
        currentResume := none, isResumeLoading := false, resumeError := none }
      (mkResume "b" "b" true) rfl rfl rfl (fun _ => rfl)
      (mkResume "b" "B" false) (by decide) rfl
      (mkResume "a" "A" true) (by decide) (by decide) rfl).2.2⟩

end JobSpy
